import Mathlib

/-!
Verification of the ITU 368 groundwave propagation wrapper
(`ITU368_grwave.py`): the single-evaluation entry point `run`, its error
taxonomy, and the batch sweep `evaluate_distances`.

The numerical solver (the `LFMF` function of the shared library `LFMF.so` /
`LFMF.dll`) is an external collaborator: it is modelled as an abstract
function from the nine input parameters to a status code and a result
record, and — where a claim depends on the collaborator's own validation
behaviour — by a validation model written from the specification's
status-semantics table.

Real-valued parameters (C `double` in the foreign call) are embedded as
rationals; the comparisons the claims are about behave identically.
-/

namespace ITU368

/-- The nine input parameters of `run`, in the positional order of the
Python signature and of the foreign `LFMF` call:
`h_tx__meter, h_rx__meter, f__mhz, P_tx__watt, N_s, d__km, epsilon, sigma, pol`. -/
structure Params where
  h_tx__meter : ℚ
  h_rx__meter : ℚ
  f__mhz : ℚ
  P_tx__watt : ℚ
  N_s : ℚ
  d__km : ℚ
  epsilon : ℚ
  sigma : ℚ
  pol : ℤ
  deriving DecidableEq, Repr

/-- The C `Result` struct: fields `A_btl__db`, `E_dBuVm`, `P_rx__dbm`
(doubles) and `method` (int). -/
structure Result where
  A_btl__db : ℚ
  E_dBuVm : ℚ
  P_rx__dbm : ℚ
  method : ℤ
  deriving DecidableEq, Repr

/-- The propagation engine boundary: one foreign call returns an integer
status code and a (possibly unpopulated, on failure irrelevant) result
struct written through the out-pointer. -/
def Engine : Type := Params → ℤ × Result

/-- The typed error `LFMFError` raised by `run`; it carries the numeric
status code and the message string of the raised exception. -/
structure LFMFError where
  code : ℤ
  msg : String
  deriving DecidableEq, Repr

/-- The `error_messages` dictionary of `run` (line 83): the fixed lookup
table for status codes 1000–1008. -/
def error_messages (status : ℤ) : Option String :=
  if status = 1000 then some "VALIDATION ERROR: h_tx__meter out of range"
  else if status = 1001 then some "VALIDATION ERROR: h_rx__meter out of range"
  else if status = 1002 then some "VALIDATION ERROR: f__mhz out of range"
  else if status = 1003 then some "VALIDATION ERROR: P_tx__watt out of range"
  else if status = 1004 then some "VALIDATION ERROR: N_s out of range"
  else if status = 1005 then some "VALIDATION ERROR: d__km out of range"
  else if status = 1006 then some "VALIDATION ERROR: epsilon out of range"
  else if status = 1007 then some "VALIDATION ERROR: sigma out of range"
  else if status = 1008 then some "VALIDATION ERROR: invalid value for pol"
  else none

/-- `error_messages.get(status, "UNKNOWN ERROR")` (line 94). -/
def errorMessage (status : ℤ) : String :=
  (error_messages status).getD "UNKNOWN ERROR"

/-- `ITU368Grwave.run` (lines 42–95): call the engine on the nine
parameters exactly as given; on status `0` return the four-field tuple
`(A_btl__db, E_dBuVm, P_rx__dbm, method)`, otherwise raise `LFMFError`
with the code and the looked-up message. -/
def run (engine : Engine) (p : Params) : Except LFMFError (ℚ × ℚ × ℚ × ℤ) :=
  let call := engine p
  let status := call.1
  let res := call.2
  if status = 0 then
    Except.ok (res.A_btl__db, res.E_dBuVm, res.P_rx__dbm, res.method)
  else
    Except.error ⟨status, errorMessage status⟩

/-- A Python value observable in the output list of `evaluate_distances`:
one of the three doubles of the result tuple, the `method` int, or the
`np.nan` sentinel placed on a caught `LFMFError`. -/
inductive PyVal where
  | float (q : ℚ)
  | int (z : ℤ)
  | nan
  deriving DecidableEq, Repr

/-- The Python 4-tuple returned by `run`, as the heterogeneous sequence it
is for indexing purposes: three floats then an int. -/
def tuple_to_list : ℚ × ℚ × ℚ × ℤ → List PyVal
  | (a, e, p, m) => [PyVal.float a, PyVal.float e, PyVal.float p, PyVal.int m]

/-- Python sequence indexing `t[i]`: a negative index counts from the end;
`none` models the `IndexError` raised when the (adjusted) index falls
outside the sequence. -/
def pyIndex (l : List PyVal) (i : ℤ) : Option PyVal :=
  let j : ℤ := if i < 0 then i + l.length else i
  if 0 ≤ j then l[j.toNat]? else none

/-- `compute_loss` (lines 110–115), the per-element closure of
`evaluate_distances`: run the model at distance `d` with the captured
baseline parameters, index the result tuple with `result_index`, and turn
a caught `LFMFError` into `np.nan`. An out-of-range `result_index` on a
successful run raises `IndexError`, which is not an `LFMFError` and is
not caught: that is the `Except.error ()` branch. -/
def compute_loss (engine : Engine)
    (h_tx__meter h_rx__meter f__mhz P_tx__watt N_s : ℚ)
    (epsilon sigma : ℚ) (pol : ℤ) (result_index : ℤ)
    (d : ℚ) : Except Unit PyVal :=
  match run engine ⟨h_tx__meter, h_rx__meter, f__mhz, P_tx__watt, N_s, d,
      epsilon, sigma, pol⟩ with
  | Except.ok t =>
      match pyIndex (tuple_to_list t) result_index with
      | some v => Except.ok v
      | none => Except.error ()
  | Except.error _ => Except.ok PyVal.nan

/-- The diagnostic `compute_loss` prints for one element (line 114): one
`(distance, error)` report when the run raises `LFMFError`, nothing
otherwise (the `IndexError` path prints nothing before propagating). -/
def compute_loss_diag (engine : Engine)
    (h_tx__meter h_rx__meter f__mhz P_tx__watt N_s : ℚ)
    (epsilon sigma : ℚ) (pol : ℤ)
    (d : ℚ) : List (ℚ × LFMFError) :=
  match run engine ⟨h_tx__meter, h_rx__meter, f__mhz, P_tx__watt, N_s, d,
      epsilon, sigma, pol⟩ with
  | Except.ok _ => []
  | Except.error e => [(d, e)]

/-- Order-preserving fallible map: the observable behaviour of
`list(executor.map(g, xs))` — results are yielded in input order and the
first exception, in input order, propagates out of the `list(...)` call. -/
def mapExcept (g : α → Except ε β) : List α → Except ε (List β)
  | [] => Except.ok []
  | x :: xs =>
      match g x with
      | Except.error e => Except.error e
      | Except.ok y =>
          match mapExcept g xs with
          | Except.error e => Except.error e
          | Except.ok ys => Except.ok (y :: ys)

/-- `evaluate_distances` (lines 97–120): map `compute_loss` over the
distances with a thread pool and collect the results in input order.
`max_workers` only sizes the `ThreadPoolExecutor`; the scheduled model
`evaluate_distances_sched` below shows the assembled output does not
depend on the execution schedule the pool picks. -/
def evaluate_distances (engine : Engine)
    (h_tx__meter h_rx__meter f__mhz P_tx__watt N_s : ℚ)
    (distances : List ℚ) (epsilon sigma : ℚ) (pol : ℤ)
    (result_index : ℤ) (max_workers : Option ℕ) :
    Except Unit (List PyVal) :=
  mapExcept
    (compute_loss engine h_tx__meter h_rx__meter f__mhz P_tx__watt N_s
      epsilon sigma pol result_index)
    distances

/-- The multiset of diagnostics printed during one batch (here listed in
input order; the spec promises no order between them): every element of
the sweep is attempted, so every failing element contributes its report. -/
def evaluate_diagnostics (engine : Engine)
    (h_tx__meter h_rx__meter f__mhz P_tx__watt N_s : ℚ)
    (distances : List ℚ) (epsilon sigma : ℚ) (pol : ℤ) :
    List (ℚ × LFMFError) :=
  (distances.map
    (compute_loss_diag engine h_tx__meter h_rx__meter f__mhz P_tx__watt N_s
      epsilon sigma pol)).flatten

/-- One pass of the worker pool: each index `i` of the schedule `σ` (the
order in which workers finish the per-element futures) writes its result
into slot `i` of a pre-sized buffer — never into the next free slot. -/
def assemble (n : ℕ) (f : ℕ → α) (σ : List ℕ) : List (Option α) :=
  σ.foldl (fun acc i => acc.set i (some (f i))) (List.replicate n none)

/-- Collect the futures buffer in input-index order, re-raising the first
stored exception; a never-filled slot (impossible for a complete
schedule) is an error. -/
def collect (l : List (Option (Except Unit α))) : Except Unit (List α) :=
  mapExcept (fun o => o.getD (Except.error ())) l

/-- `evaluate_distances`, scheduled model: the pool executes the
per-element futures in an arbitrary completion order `σ` (a permutation
of the element indices, however many workers `max_workers` configures),
stores each result at its input index, and collects in input order. -/
def evaluate_distances_sched (engine : Engine)
    (h_tx__meter h_rx__meter f__mhz P_tx__watt N_s : ℚ)
    (distances : List ℚ) (epsilon sigma : ℚ) (pol : ℤ)
    (result_index : ℤ) (max_workers : Option ℕ) (σ : List ℕ) :
    Except Unit (List PyVal) :=
  collect (assemble distances.length
    (fun i =>
      compute_loss engine h_tx__meter h_rx__meter f__mhz P_tx__watt N_s
        epsilon sigma pol result_index (distances.getD i 0))
    σ)

/-- Modelled from the spec: the validation performed inside the external
`LFMF` engine (the shared library is not part of the wrapper's source).
The spec's bounds table, checked per field: heights in meters `[0,50]`;
frequency in MHz `[0.01,30]`; power in watts `(0,∞)`; refractivity in
N-units `[250,400]`; distance in km `(-∞,10000]`; permittivity `[1,∞)`;
conductivity in S/m `(0,∞)`; polarization in `\x7b0,1\x7d`. Listed in the
fixed declaration order, so position `i` answers for status `1000 + i`. -/
def fieldChecks (p : Params) : List Bool :=
  [decide (0 ≤ p.h_tx__meter ∧ p.h_tx__meter ≤ 50),
   decide (0 ≤ p.h_rx__meter ∧ p.h_rx__meter ≤ 50),
   decide (1/100 ≤ p.f__mhz ∧ p.f__mhz ≤ 30),
   decide (0 < p.P_tx__watt),
   decide (250 ≤ p.N_s ∧ p.N_s ≤ 400),
   decide (p.d__km ≤ 10000),
   decide (1 ≤ p.epsilon),
   decide (0 < p.sigma),
   decide (p.pol = 0 ∨ p.pol = 1)]

/-- Modelled from the spec: the engine's status code — `0` on success,
else `1000 + i` for the FIRST field (in declaration order) whose check
fails, matching the spec's status semantics `1000`–`1008` and its
stop-at-first-violation rule. -/
def lfmfStatus (p : Params) : ℤ :=
  match (fieldChecks p).findIdx? (fun b => !b) with
  | some i => 1000 + (i : ℤ)
  | none => 0

/-- Modelled from the spec: the external engine — the spec-modelled
validation in front of an arbitrary numerical kernel `compute` (the
solver itself stays a black box). -/
def lfmfEngine (compute : Params → Result) : Engine :=
  fun p => (lfmfStatus p, compute p)

/-- `run` with the foreign-call boundary instrumented by an explicit
state `σ` threaded through the engine call, so that the number and order
of engine invocations is observable (a pure engine is the special case
`fun p s => (e p, s)`). -/
def runS {σ : Type} (engine : Params → σ → (ℤ × Result) × σ) (p : Params)
    (s : σ) : Except LFMFError (ℚ × ℚ × ℚ × ℤ) × σ :=
  let call := engine p s
  let status := call.1.1
  let res := call.1.2
  (if status = 0 then
    Except.ok (res.A_btl__db, res.E_dBuVm, res.P_rx__dbm, res.method)
  else
    Except.error ⟨status, errorMessage status⟩, call.2)

/-- An engine call counter: the pure engine `e` wrapped to record each
invocation. -/
def countedEngine (e : Engine) : Params → ℕ → (ℤ × Result) × ℕ :=
  fun p n => (e p, n + 1)

/-- The value position `i` of the output holds when the selector is in
range: the `result_index` component of the run tuple on success, `np.nan`
on a caught `LFMFError`. -/
def elemValue (engine : Engine)
    (h_tx__meter h_rx__meter f__mhz P_tx__watt N_s : ℚ)
    (epsilon sigma : ℚ) (pol : ℤ) (result_index : ℤ)
    (d : ℚ) : PyVal :=
  match run engine ⟨h_tx__meter, h_rx__meter, f__mhz, P_tx__watt, N_s, d,
      epsilon, sigma, pol⟩ with
  | Except.ok t => (pyIndex (tuple_to_list t) result_index).getD PyVal.nan
  | Except.error _ => PyVal.nan

theorem run_eq_of_call_eq (e1 e2 : Engine) (p : Params) (h : e1 p = e2 p) :
    run e1 p = run e2 p := by
  unfold run
  rw [h]

theorem mapExcept_eq_ok_of_forall {α β ε : Type} {g : α → Except ε β}
    {f : α → β} :
    ∀ {xs : List α}, (∀ x ∈ xs, g x = Except.ok (f x)) →
      mapExcept g xs = Except.ok (xs.map f) := by
  intro xs
  induction xs with
  | nil => intro _; rfl
  | cons x xs ih =>
      intro h
      have hx := h x (List.mem_cons_self x xs)
      have hxs := ih (fun y hy => h y (List.mem_cons_of_mem x hy))
      simp [mapExcept, hx, hxs]

theorem mapExcept_eq_error_of_mem {α β ε : Type} {g : α → Except ε β}
    {xs : List α} {x : α} (hx : x ∈ xs) {e : ε}
    (hgx : g x = Except.error e) :
    ∃ e', mapExcept g xs = Except.error e' := by
  induction xs with
  | nil => cases hx
  | cons y ys ih =>
      rcases List.mem_cons.mp hx with rfl | hmem
      · exact ⟨e, by simp [mapExcept, hgx]⟩
      · cases hgy : g y with
        | error e2 => exact ⟨e2, by simp [mapExcept, hgy]⟩
        | ok v =>
            obtain ⟨e', he'⟩ := ih hmem
            exact ⟨e', by simp [mapExcept, hgy, he']⟩

theorem mapExcept_map {α β γ ε : Type} (g : β → Except ε γ) (h : α → β)
    (xs : List α) :
    mapExcept g (xs.map h) = mapExcept (fun x => g (h x)) xs := by
  induction xs with
  | nil => rfl
  | cons x xs ih => simp [mapExcept, ih]

theorem mapExcept_congr {α β ε : Type} {g1 g2 : α → Except ε β}
    (xs : List α) (h : ∀ x, g1 x = g2 x) :
    mapExcept g1 xs = mapExcept g2 xs := by
  induction xs with
  | nil => rfl
  | cons x xs ih => simp [mapExcept, h, ih]

theorem mapExcept_range_getD {α β ε : Type} (g : α → Except ε β) (d0 : α) :
    ∀ D : List α,
      mapExcept (fun i => g (D.getD i d0)) (List.range D.length) =
        mapExcept g D := by
  intro D
  induction D with
  | nil => rfl
  | cons x D ih =>
      rw [List.length_cons, List.range_succ_eq_map]
      have hmap :
          mapExcept (fun i => g ((x :: D).getD i d0))
              (List.map Nat.succ (List.range D.length)) =
            mapExcept (fun i => g (D.getD i d0)) (List.range D.length) := by
        rw [mapExcept_map]
        exact mapExcept_congr _ (fun i => by simp)
      simp only [mapExcept, List.getD_cons_zero, hmap, ih]

theorem foldl_set_getElem? {α : Type} (f : ℕ → α) :
    ∀ (σ : List ℕ) (acc : List (Option α)) (i : ℕ),
      (σ.foldl (fun a j => a.set j (some (f j))) acc)[i]? =
        if i ∈ σ ∧ i < acc.length then some (some (f i)) else acc[i]? := by
  intro σ
  induction σ with
  | nil => intro acc i; simp
  | cons x σ ih =>
      intro acc i
      rw [List.foldl_cons, ih, List.length_set, List.getElem?_set]
      by_cases hmem : i ∈ σ
      · by_cases hlen : i < acc.length
        · simp [hmem, hlen, List.mem_cons]
        · simp only [hmem, hlen, and_false, and_true, if_false]
          by_cases hxi : x = i
          · subst hxi
            simp [hlen, List.getElem?_eq_none (by omega : acc.length ≤ x)]
          · simp [hxi]
      · simp only [hmem, false_and, if_false]
        by_cases hxi : x = i
        · subst hxi
          by_cases hlen : x < acc.length
          · simp [hlen, List.mem_cons]
          · simp [hlen, List.mem_cons, hmem,
              List.getElem?_eq_none (by omega : acc.length ≤ x)]
        · simp only [hxi, if_false, List.mem_cons, hmem, or_false]
          rw [if_neg (fun hc => hxi hc.1.symm)]

theorem assemble_eq_map {α : Type} (f : ℕ → α) (n : ℕ) (σ : List ℕ)
    (hsub : ∀ x ∈ σ, x < n) (hall : ∀ i < n, i ∈ σ) :
    assemble n f σ = (List.range n).map (fun i => some (f i)) := by
  apply List.ext_getElem?
  intro i
  unfold assemble
  rw [foldl_set_getElem?, List.length_replicate, List.getElem?_map]
  by_cases hi : i < n
  · simp [hall i hi, hi, List.getElem?_range hi]
  · have hnot : i ∉ σ := fun hmem => hi (hsub i hmem)
    simp [hnot, hi, List.getElem?_eq_none
      (by simpa using (by omega : n ≤ i) : (List.range n).length ≤ i),
      List.getElem?_replicate]

theorem collect_map_some {α : Type} (f : ℕ → Except Unit α) (n : ℕ) :
    collect ((List.range n).map (fun i => some (f i))) =
      mapExcept f (List.range n) := by
  unfold collect
  rw [mapExcept_map]
  exact mapExcept_congr _ (fun i => rfl)

theorem evaluate_distances_sched_eq (engine : Engine)
    (h_tx__meter h_rx__meter f__mhz P_tx__watt N_s : ℚ)
    (distances : List ℚ) (epsilon sigma : ℚ) (pol : ℤ)
    (result_index : ℤ) (mw mw' : Option ℕ) (σ : List ℕ)
    (hσ : σ.Perm (List.range distances.length)) :
    evaluate_distances_sched engine h_tx__meter h_rx__meter f__mhz
        P_tx__watt N_s distances epsilon sigma pol result_index mw σ =
      evaluate_distances engine h_tx__meter h_rx__meter f__mhz P_tx__watt
        N_s distances epsilon sigma pol result_index mw' := by
  unfold evaluate_distances_sched evaluate_distances
  rw [assemble_eq_map _ _ _
    (fun x hx => List.mem_range.mp (hσ.mem_iff.mp hx))
    (fun i hi => hσ.mem_iff.mpr (List.mem_range.mpr hi))]
  rw [collect_map_some, mapExcept_range_getD]

theorem pyIndex_isSome_of_range (t : ℚ × ℚ × ℚ × ℤ) (i : ℤ)
    (h1 : -4 ≤ i) (h2 : i ≤ 3) :
    ∃ v, pyIndex (tuple_to_list t) i = some v := by
  obtain ⟨a, e, p, m⟩ := t
  interval_cases i <;> exact ⟨_, rfl⟩

theorem pyIndex_eq_none_of_out (t : ℚ × ℚ × ℚ × ℤ) (i : ℤ)
    (h : i < -4 ∨ 3 < i) :
    pyIndex (tuple_to_list t) i = none := by
  obtain ⟨a, e, p, m⟩ := t
  have hlen : (tuple_to_list (a, e, p, m)).length = 4 := rfl
  simp only [pyIndex, hlen]
  rcases h with h | h
  · rw [if_pos (show i < 0 by omega),
      if_neg (show ¬(0:ℤ) ≤ i + ((4:ℕ):ℤ) by omega)]
  · rw [if_neg (show ¬i < 0 by omega), if_pos (show (0:ℤ) ≤ i by omega)]
    exact List.getElem?_eq_none (by rw [hlen]; omega)

theorem findIdx?_not_first :
    ∀ (l : List Bool) (k i : ℕ),
      List.findIdx? (fun b => !b) l k = some i →
      k ≤ i ∧ i - k < l.length ∧ l[i - k]? = some false ∧
        ∀ j < i - k, l[j]? = some true := by
  intro l
  induction l with
  | nil => intro k i h; simp [List.findIdx?] at h
  | cons x xs ih =>
      intro k i h
      rw [List.findIdx?_cons] at h
      by_cases hx : x = true
      · have h' := ih (k + 1) i (by simpa [hx] using h)
        obtain ⟨hki, hlt, hfalse, hall⟩ := h'
        refine ⟨by omega, by simp; omega, ?_, ?_⟩
        · have : i - k = (i - (k + 1)) + 1 := by omega
          rw [this, List.getElem?_cons_succ]
          exact hfalse
        · intro j hj
          cases j with
          | zero => simp [hx]
          | succ j' =>
              rw [List.getElem?_cons_succ]
              exact hall j' (by omega)
      · have hx' : x = false := by
          cases x with
          | false => rfl
          | true => exact absurd rfl hx
        have h' : some k = some i := by simpa [hx'] using h
        have hik : i = k := (Option.some_inj.mp h').symm
        subst hik
        refine ⟨le_refl i, by simp, ?_, ?_⟩
        · simp [hx']
        · intro j hj; omega

theorem findIdx?_not_isSome :
    ∀ (l : List Bool) (k : ℕ), (∃ b ∈ l, b = false) →
      (List.findIdx? (fun b => !b) l k).isSome = true := by
  intro l
  induction l with
  | nil => intro k h; simp at h
  | cons x xs ih =>
      intro k h
      rw [List.findIdx?_cons]
      by_cases hx : x = true
      · obtain ⟨b, hb, hbf⟩ := h
        rcases List.mem_cons.mp hb with rfl | hmem
        · simp [hbf] at hx
        · simpa [hx] using ih (k + 1) ⟨b, hmem, hbf⟩
      · have hx' : x = false := by
          cases x with
          | false => rfl
          | true => exact absurd rfl hx
        simp [hx']

theorem findIdx?_not_eq_none :
    ∀ (l : List Bool) (k : ℕ), (∀ b ∈ l, b = true) →
      List.findIdx? (fun b => !b) l k = none := by
  intro l
  induction l with
  | nil => intro k _; simp [List.findIdx?]
  | cons x xs ih =>
      intro k h
      rw [List.findIdx?_cons]
      have hx := h x (List.mem_cons_self x xs)
      simpa [hx] using ih (k + 1) (fun b hb => h b (List.mem_cons_of_mem x hb))

theorem lfmfStatus_eq_zero (p : Params)
    (h : ∀ b ∈ fieldChecks p, b = true) : lfmfStatus p = 0 := by
  unfold lfmfStatus
  rw [findIdx?_not_eq_none (fieldChecks p) 0 h]

theorem run_lfmfEngine_ok (compute : Params → Result) (p : Params)
    (h : ∀ b ∈ fieldChecks p, b = true) :
    run (lfmfEngine compute) p =
      Except.ok ((compute p).A_btl__db, (compute p).E_dBuVm,
        (compute p).P_rx__dbm, (compute p).method) := by
  unfold run lfmfEngine
  simp [lfmfStatus_eq_zero p h]

theorem run_lfmfEngine_error (compute : Params → Result) (p : Params)
    (i : ℕ) (h : List.findIdx? (fun b => !b) (fieldChecks p) 0 = some i) :
    run (lfmfEngine compute) p =
      Except.error ⟨1000 + (i : ℤ), errorMessage (1000 + (i : ℤ))⟩ := by
  unfold run lfmfEngine lfmfStatus
  rw [h]
  simp only
  rw [if_neg (show ¬(1000 + (i : ℤ) = 0) by omega)]

theorem compute_loss_eq_elemValue (engine : Engine)
    (h_tx h_rx f P N eps sig : ℚ) (pol rix : ℤ) (d : ℚ)
    (h1 : -4 ≤ rix) (h2 : rix ≤ 3) :
    compute_loss engine h_tx h_rx f P N eps sig pol rix d =
      Except.ok (elemValue engine h_tx h_rx f P N eps sig pol rix d) := by
  unfold compute_loss elemValue
  cases hr : run engine ⟨h_tx, h_rx, f, P, N, d, eps, sig, pol⟩ with
  | ok t =>
      obtain ⟨v, hv⟩ := pyIndex_isSome_of_range t rix h1 h2
      simp [hv]
  | error e => rfl

theorem evaluate_distances_eq_map (engine : Engine)
    (h_tx h_rx f P N : ℚ) (D : List ℚ) (eps sig : ℚ) (pol rix : ℤ)
    (mw : Option ℕ) (h1 : -4 ≤ rix) (h2 : rix ≤ 3) :
    evaluate_distances engine h_tx h_rx f P N D eps sig pol rix mw =
      Except.ok (D.map (elemValue engine h_tx h_rx f P N eps sig pol rix)) := by
  unfold evaluate_distances
  exact mapExcept_eq_ok_of_forall
    (fun d _ => compute_loss_eq_elemValue engine h_tx h_rx f P N eps sig
      pol rix d h1 h2)

/-- Claim C4: `run` returns the four-field result tuple exactly when the
engine status is `0`; any nonzero status raises a typed `LFMFError`
carrying the numeric code and the table message for codes 1000–1008, and
the generic unknown-error message for any other nonzero code; no error is
swallowed and no partial result returned. -/
theorem claim_C4_run_status_taxonomy (engine : Engine) (p : Params) :
    ((engine p).1 = 0 →
      run engine p = Except.ok ((engine p).2.A_btl__db, (engine p).2.E_dBuVm,
        (engine p).2.P_rx__dbm, (engine p).2.method)) ∧
    ((engine p).1 ≠ 0 →
      run engine p = Except.error ⟨(engine p).1, errorMessage (engine p).1⟩) ∧
    errorMessage 1000 = "VALIDATION ERROR: h_tx__meter out of range" ∧
    errorMessage 1001 = "VALIDATION ERROR: h_rx__meter out of range" ∧
    errorMessage 1002 = "VALIDATION ERROR: f__mhz out of range" ∧
    errorMessage 1003 = "VALIDATION ERROR: P_tx__watt out of range" ∧
    errorMessage 1004 = "VALIDATION ERROR: N_s out of range" ∧
    errorMessage 1005 = "VALIDATION ERROR: d__km out of range" ∧
    errorMessage 1006 = "VALIDATION ERROR: epsilon out of range" ∧
    errorMessage 1007 = "VALIDATION ERROR: sigma out of range" ∧
    errorMessage 1008 = "VALIDATION ERROR: invalid value for pol" ∧
    ∀ c : ℤ, c ≠ 0 → c < 1000 ∨ 1008 < c →
      errorMessage c = "UNKNOWN ERROR" := by
  refine ⟨?_, ?_, rfl, rfl, rfl, rfl, rfl, rfl, rfl, rfl, rfl, ?_⟩
  · intro h
    simp [run, h]
  · intro h
    simp [run, h]
  · intro c _ hc
    unfold errorMessage error_messages
    split_ifs with e1 e2 e3 e4 e5 e6 e7 e8 e9 <;> first | omega | rfl

/-- Witness for C4 at a concrete success engine and a concrete engine
returning unknown status 7. -/
theorem claim_C4_witness :
    run (fun _ => ((0 : ℤ), ⟨1, 2, 3, 0⟩)) ⟨2, 2, 1, 50000, 250, 100, 20, 1, 1⟩ =
      Except.ok (1, 2, 3, 0) ∧
    run (fun _ => ((7 : ℤ), ⟨0, 0, 0, 0⟩)) ⟨2, 2, 1, 50000, 250, 100, 20, 1, 1⟩ =
      Except.error ⟨7, "UNKNOWN ERROR"⟩ := by
  constructor
  · exact (claim_C4_run_status_taxonomy
      (fun _ => ((0 : ℤ), ⟨1, 2, 3, 0⟩)) ⟨2, 2, 1, 50000, 250, 100, 20, 1, 1⟩).1 rfl
  · have h := (claim_C4_run_status_taxonomy
      (fun _ => ((7 : ℤ), ⟨0, 0, 0, 0⟩)) ⟨2, 2, 1, 50000, 250, 100, 20, 1, 1⟩).2.1
      (by decide)
    rw [h]
    rfl

/-- Claim C7: `run` forwards the nine parameters to the engine exactly as
given — its outcome depends only on the engine's value at the given
parameter set, with no coercion or clamping — and, against the
spec-modelled validating engine, an out-of-range value is always rejected
with an error, never silently replaced. -/
theorem claim_C7_forward_unchanged :
    (∀ (e1 e2 : Engine) (p : Params), e1 p = e2 p → run e1 p = run e2 p) ∧
    (∀ (compute : Params → Result) (p : Params),
      (∃ b ∈ fieldChecks p, b = false) →
      ∃ err, run (lfmfEngine compute) p = Except.error err) := by
  constructor
  · exact run_eq_of_call_eq
  · intro compute p h
    obtain ⟨i, hi⟩ :=
      Option.isSome_iff_exists.mp (findIdx?_not_isSome (fieldChecks p) 0 h)
    exact ⟨_, run_lfmfEngine_error compute p i hi⟩

/-- Witness for C7: two engines agreeing at a concrete parameter set give
the same outcome, and a parameter set with a negative transmitter height
is rejected by the spec-modelled engine. -/
theorem claim_C7_witness :
    run (fun q => ((q.pol, ⟨1, 2, 3, 0⟩) : ℤ × Result))
        ⟨2, 2, 1, 50000, 250, 100, 20, 1, 0⟩ =
      run (fun _ => ((0 : ℤ), ⟨1, 2, 3, 0⟩))
        ⟨2, 2, 1, 50000, 250, 100, 20, 1, 0⟩ ∧
    ∃ err, run (lfmfEngine (fun _ => ⟨0, 0, 0, 0⟩))
        ⟨-1, 2, 1, 1, 250, 1, 1, 1, 1⟩ = Except.error err := by
  constructor
  · exact claim_C7_forward_unchanged.1 _ _ _ rfl
  · exact claim_C7_forward_unchanged.2 (fun _ => ⟨0, 0, 0, 0⟩)
      ⟨-1, 2, 1, 1, 250, 1, 1, 1, 1⟩
      ⟨decide (0 ≤ (-1:ℚ) ∧ (-1:ℚ) ≤ 50), by simp [fieldChecks], by decide⟩

/-- Claim C8: with the engine-call boundary instrumented by a call
counter, `run` performs exactly one engine invocation (no retries), and
its outcome is the same from any two starting states — two invocations
with identical parameter values produce the same result tuple or the same
typed error, a function of the input only. -/
theorem claim_C8_deterministic_single_call (e : Engine) (p : Params)
    (s1 s2 : ℕ) :
    (runS (countedEngine e) p s1).2 = s1 + 1 ∧
    (runS (countedEngine e) p s1).1 = (runS (countedEngine e) p s2).1 ∧
    (runS (countedEngine e) p s1).1 = run e p :=
  ⟨rfl, rfl, rfl⟩

/-- Claim C10: on the empty sweep `evaluate_distances` returns the empty
list, raises no error, emits no diagnostic, and consults no engine — the
result is the same for every engine. -/
theorem claim_C10_empty_sweep (engine engine2 : Engine)
    (h_tx h_rx f P N eps sig : ℚ) (pol rix : ℤ) (mw mw2 : Option ℕ) :
    evaluate_distances engine h_tx h_rx f P N [] eps sig pol rix mw =
      Except.ok [] ∧
    evaluate_diagnostics engine h_tx h_rx f P N [] eps sig pol = [] ∧
    evaluate_distances engine h_tx h_rx f P N [] eps sig pol rix mw =
      evaluate_distances engine2 h_tx h_rx f P N [] eps sig pol rix mw2 :=
  ⟨rfl, rfl, rfl⟩

theorem mem_evaluate_diagnostics (engine : Engine)
    (h_tx h_rx f P N : ℚ) (D : List ℚ) (eps sig : ℚ) (pol : ℤ)
    (i : ℕ) (hi : i < D.length) (err : LFMFError)
    (herr : run engine ⟨h_tx, h_rx, f, P, N, D.getD i 0, eps, sig, pol⟩ =
      Except.error err) :
    (D.getD i 0, err) ∈
      evaluate_diagnostics engine h_tx h_rx f P N D eps sig pol := by
  unfold evaluate_diagnostics
  rw [List.mem_flatten]
  refine ⟨compute_loss_diag engine h_tx h_rx f P N eps sig pol (D.getD i 0),
    ?_, ?_⟩
  · refine List.mem_map.mpr ⟨D.getD i 0, ?_, rfl⟩
    rw [List.getD_eq_getElem D 0 hi]
    exact List.getElem_mem hi
  · unfold compute_loss_diag
    rw [herr]
    exact List.mem_singleton.mpr rfl

theorem map_elemValue_getElem? (engine : Engine)
    (h_tx h_rx f P N : ℚ) (D : List ℚ) (eps sig : ℚ) (pol rix : ℤ)
    (i : ℕ) (hi : i < D.length) :
    (D.map (elemValue engine h_tx h_rx f P N eps sig pol rix))[i]? =
      some (elemValue engine h_tx h_rx f P N eps sig pol rix (D.getD i 0)) := by
  rw [List.getElem?_map, List.getElem?_eq_getElem hi,
    List.getD_eq_getElem D 0 hi]
  rfl

/-- Claim C1: for every sweep `D` of length `N` and every baseline, with
the selector in the tuple's index range, `evaluate_distances` returns
(without exception) a list of length `N` whose position `i` holds the
`result_index` component of the single-evaluation `run` result for
`D[i]` whenever that evaluation succeeds, and the `np.nan` sentinel
whenever it fails. -/
theorem claim_C1_batch_matches_single (engine : Engine)
    (h_tx h_rx f P N : ℚ) (D : List ℚ) (eps sig : ℚ) (pol rix : ℤ)
    (mw : Option ℕ) (hlo : -4 ≤ rix) (hhi : rix ≤ 3) :
    ∃ out : List PyVal,
      evaluate_distances engine h_tx h_rx f P N D eps sig pol rix mw =
        Except.ok out ∧
      out.length = D.length ∧
      ∀ i, i < D.length →
        (∀ t, run engine ⟨h_tx, h_rx, f, P, N, D.getD i 0, eps, sig, pol⟩ =
            Except.ok t →
          ∃ v, pyIndex (tuple_to_list t) rix = some v ∧ out[i]? = some v) ∧
        (∀ err, run engine ⟨h_tx, h_rx, f, P, N, D.getD i 0, eps, sig, pol⟩ =
            Except.error err → out[i]? = some PyVal.nan) := by
  refine ⟨D.map (elemValue engine h_tx h_rx f P N eps sig pol rix),
    evaluate_distances_eq_map engine h_tx h_rx f P N D eps sig pol rix mw
      hlo hhi, by simp, ?_⟩
  intro i hi
  have hmap := map_elemValue_getElem? engine h_tx h_rx f P N D eps sig pol
    rix i hi
  constructor
  · intro t ht
    obtain ⟨v, hv⟩ := pyIndex_isSome_of_range t rix hlo hhi
    refine ⟨v, hv, ?_⟩
    rw [hmap]
    unfold elemValue
    rw [ht]
    show some ((pyIndex (tuple_to_list t) rix).getD PyVal.nan) = some v
    rw [hv]
    rfl
  · intro err herr
    rw [hmap]
    unfold elemValue
    rw [herr]

/-- Witness for C1: one succeeding and one failing sweep element against
a concrete engine that rejects distances above 10. -/
theorem claim_C1_witness :
    ∃ out : List PyVal,
      evaluate_distances
          (fun q => (if q.d__km ≤ 10 then ((0 : ℤ), ⟨q.d__km, 8, 9, 1⟩)
            else ((1005 : ℤ), ⟨0, 0, 0, 0⟩)))
          2 2 1 50000 250 [5, 20] 20 1 1 0 (some 2) =
        Except.ok out ∧
      out.length = ([5, 20] : List ℚ).length ∧
      ∀ i, i < ([5, 20] : List ℚ).length →
        (∀ t, run
            (fun q => (if q.d__km ≤ 10 then ((0 : ℤ), ⟨q.d__km, 8, 9, 1⟩)
              else ((1005 : ℤ), ⟨0, 0, 0, 0⟩)))
            ⟨2, 2, 1, 50000, 250, ([5, 20] : List ℚ).getD i 0, 20, 1, 1⟩ =
            Except.ok t →
          ∃ v, pyIndex (tuple_to_list t) 0 = some v ∧ out[i]? = some v) ∧
        (∀ err, run
            (fun q => (if q.d__km ≤ 10 then ((0 : ℤ), ⟨q.d__km, 8, 9, 1⟩)
              else ((1005 : ℤ), ⟨0, 0, 0, 0⟩)))
            ⟨2, 2, 1, 50000, 250, ([5, 20] : List ℚ).getD i 0, 20, 1, 1⟩ =
            Except.error err → out[i]? = some PyVal.nan) :=
  claim_C1_batch_matches_single
    (fun q => (if q.d__km ≤ 10 then ((0 : ℤ), ⟨q.d__km, 8, 9, 1⟩)
      else ((1005 : ℤ), ⟨0, 0, 0, 0⟩)))
    2 2 1 50000 250 [5, 20] 20 1 1 0 (some 2) (by decide) (by decide)

/-- Claim C2: per-element failure isolation — with the selector in range,
any element whose evaluation raises `LFMFError` yields the `np.nan`
sentinel at exactly its own position and a reported diagnostic, every
other element still holds its own single-evaluation value, the batch
raises no exception, and every element is attempted (the output covers
all `N` positions). -/
theorem claim_C2_failure_isolation (engine : Engine)
    (h_tx h_rx f P N : ℚ) (D : List ℚ) (eps sig : ℚ) (pol rix : ℤ)
    (mw : Option ℕ) (hlo : -4 ≤ rix) (hhi : rix ≤ 3) :
    ∃ out : List PyVal,
      evaluate_distances engine h_tx h_rx f P N D eps sig pol rix mw =
        Except.ok out ∧
      out.length = D.length ∧
      (∀ i, i < D.length →
        ∀ err, run engine ⟨h_tx, h_rx, f, P, N, D.getD i 0, eps, sig, pol⟩ =
            Except.error err →
          out[i]? = some PyVal.nan ∧
          (D.getD i 0, err) ∈
            evaluate_diagnostics engine h_tx h_rx f P N D eps sig pol) ∧
      (∀ i, i < D.length →
        ∀ t, run engine ⟨h_tx, h_rx, f, P, N, D.getD i 0, eps, sig, pol⟩ =
            Except.ok t →
          ∃ v, pyIndex (tuple_to_list t) rix = some v ∧ out[i]? = some v) := by
  refine ⟨D.map (elemValue engine h_tx h_rx f P N eps sig pol rix),
    evaluate_distances_eq_map engine h_tx h_rx f P N D eps sig pol rix mw
      hlo hhi, by simp, ?_, ?_⟩
  · intro i hi err herr
    have hmap := map_elemValue_getElem? engine h_tx h_rx f P N D eps sig pol
      rix i hi
    constructor
    · rw [hmap]
      unfold elemValue
      rw [herr]
    · exact mem_evaluate_diagnostics engine h_tx h_rx f P N D eps sig pol
        i hi err herr
  · intro i hi t ht
    have hmap := map_elemValue_getElem? engine h_tx h_rx f P N D eps sig pol
      rix i hi
    obtain ⟨v, hv⟩ := pyIndex_isSome_of_range t rix hlo hhi
    refine ⟨v, hv, ?_⟩
    rw [hmap]
    unfold elemValue
    rw [ht]
    show some ((pyIndex (tuple_to_list t) rix).getD PyVal.nan) = some v
    rw [hv]
    rfl

/-- Witness for C2: a sweep whose middle element is rejected by a
concrete engine while its neighbours succeed. -/
theorem claim_C2_witness :
    ∃ out : List PyVal,
      evaluate_distances
          (fun q => (if q.d__km ≤ 10 then ((0 : ℤ), ⟨q.d__km, 8, 9, 1⟩)
            else ((1005 : ℤ), ⟨0, 0, 0, 0⟩)))
          2 2 1 50000 250 [5, 20, 7] 20 1 1 0 (some 4) =
        Except.ok out ∧
      out.length = ([5, 20, 7] : List ℚ).length ∧
      (∀ i, i < ([5, 20, 7] : List ℚ).length →
        ∀ err, run
            (fun q => (if q.d__km ≤ 10 then ((0 : ℤ), ⟨q.d__km, 8, 9, 1⟩)
              else ((1005 : ℤ), ⟨0, 0, 0, 0⟩)))
            ⟨2, 2, 1, 50000, 250, ([5, 20, 7] : List ℚ).getD i 0, 20, 1, 1⟩ =
            Except.error err →
          out[i]? = some PyVal.nan ∧
          (([5, 20, 7] : List ℚ).getD i 0, err) ∈
            evaluate_diagnostics
              (fun q => (if q.d__km ≤ 10 then ((0 : ℤ), ⟨q.d__km, 8, 9, 1⟩)
                else ((1005 : ℤ), ⟨0, 0, 0, 0⟩)))
              2 2 1 50000 250 [5, 20, 7] 20 1 1) ∧
      (∀ i, i < ([5, 20, 7] : List ℚ).length →
        ∀ t, run
            (fun q => (if q.d__km ≤ 10 then ((0 : ℤ), ⟨q.d__km, 8, 9, 1⟩)
              else ((1005 : ℤ), ⟨0, 0, 0, 0⟩)))
            ⟨2, 2, 1, 50000, 250, ([5, 20, 7] : List ℚ).getD i 0, 20, 1, 1⟩ =
            Except.ok t →
          ∃ v, pyIndex (tuple_to_list t) 0 = some v ∧ out[i]? = some v) :=
  claim_C2_failure_isolation
    (fun q => (if q.d__km ≤ 10 then ((0 : ℤ), ⟨q.d__km, 8, 9, 1⟩)
      else ((1005 : ℤ), ⟨0, 0, 0, 0⟩)))
    2 2 1 50000 250 [5, 20, 7] 20 1 1 0 (some 4) (by decide) (by decide)

/-- Claim C9: the sentinel path covers only engine/validation failures —
every integer selector in `[-4, 3]` indexes the four-element tuple
successfully, while for a selector outside `[-4, 3]` any sweep containing
at least one succeeding element makes `evaluate_distances` raise the
uncaught `IndexError` instead of placing a sentinel. -/
theorem claim_C9_selector_out_of_range (engine : Engine)
    (h_tx h_rx f P N : ℚ) (D : List ℚ) (eps sig : ℚ) (pol rix : ℤ)
    (mw : Option ℕ) :
    (∀ t : ℚ × ℚ × ℚ × ℤ, -4 ≤ rix → rix ≤ 3 →
      ∃ v, pyIndex (tuple_to_list t) rix = some v) ∧
    ((rix < -4 ∨ 3 < rix) →
      (∃ d ∈ D,
        (run engine ⟨h_tx, h_rx, f, P, N, d, eps, sig, pol⟩).isOk = true) →
      evaluate_distances engine h_tx h_rx f P N D eps sig pol rix mw =
        Except.error ()) := by
  constructor
  · exact fun t h1 h2 => pyIndex_isSome_of_range t rix h1 h2
  · rintro hout ⟨d, hd, hok⟩
    obtain ⟨t, ht⟩ : ∃ t,
        run engine ⟨h_tx, h_rx, f, P, N, d, eps, sig, pol⟩ = Except.ok t := by
      cases hr : run engine ⟨h_tx, h_rx, f, P, N, d, eps, sig, pol⟩ with
      | ok t => exact ⟨t, rfl⟩
      | error e => rw [hr] at hok; simp [Except.isOk, Except.toBool] at hok
    have hcl : compute_loss engine h_tx h_rx f P N eps sig pol rix d =
        Except.error () := by
      unfold compute_loss
      rw [ht]
      show (match pyIndex (tuple_to_list t) rix with
        | some v => Except.ok v
        | none => Except.error ()) = Except.error ()
      rw [pyIndex_eq_none_of_out t rix hout]
    obtain ⟨e', he'⟩ := mapExcept_eq_error_of_mem hd hcl
    unfold evaluate_distances
    rw [he']

/-- Witness for C9: a one-element succeeding sweep with selector 4 makes
the batch raise, all side conditions discharged at the concrete input. -/
theorem claim_C9_witness :
    evaluate_distances (fun _ => ((0 : ℤ), ⟨1, 2, 3, 0⟩))
        2 2 1 50000 250 [5] 20 1 1 4 none = Except.error () :=
  (claim_C9_selector_out_of_range (fun _ => ((0 : ℤ), ⟨1, 2, 3, 0⟩))
      2 2 1 50000 250 [5] 20 1 1 4 none).2
    (Or.inr (by decide)) ⟨5, by decide, rfl⟩

/-- Claim C3: the output of a batch is invariant to the worker-pool size —
under any two completion schedules (permutations of the element indices,
whatever worker counts produced them) the scheduled evaluation assembles
identical outputs, both equal to the sequential input-order evaluation. -/
theorem claim_C3_worker_count_invariance (engine : Engine)
    (h_tx h_rx f P N : ℚ) (D : List ℚ) (eps sig : ℚ) (pol rix : ℤ)
    (k1 k2 : Option ℕ) (σ1 σ2 : List ℕ)
    (h1 : σ1.Perm (List.range D.length))
    (h2 : σ2.Perm (List.range D.length)) :
    evaluate_distances_sched engine h_tx h_rx f P N D eps sig pol rix
        k1 σ1 =
      evaluate_distances_sched engine h_tx h_rx f P N D eps sig pol rix
        k2 σ2 ∧
    evaluate_distances_sched engine h_tx h_rx f P N D eps sig pol rix
        k1 σ1 =
      evaluate_distances engine h_tx h_rx f P N D eps sig pol rix k1 := by
  have e1 := evaluate_distances_sched_eq engine h_tx h_rx f P N D eps sig
    pol rix k1 k1 σ1 h1
  have e2 := evaluate_distances_sched_eq engine h_tx h_rx f P N D eps sig
    pol rix k2 k1 σ2 h2
  exact ⟨e1.trans e2.symm, e1⟩

/-- Witness for C3: a two-element sweep evaluated with one worker in
input order and with four workers in reversed completion order. -/
theorem claim_C3_witness :
    evaluate_distances_sched (fun q => ((0 : ℤ), ⟨q.d__km, 0, 0, 1⟩))
        2 2 1 50000 250 [5, 7] 20 1 1 0 (some 1) [0, 1] =
      evaluate_distances_sched (fun q => ((0 : ℤ), ⟨q.d__km, 0, 0, 1⟩))
        2 2 1 50000 250 [5, 7] 20 1 1 0 (some 4) [1, 0] ∧
    evaluate_distances_sched (fun q => ((0 : ℤ), ⟨q.d__km, 0, 0, 1⟩))
        2 2 1 50000 250 [5, 7] 20 1 1 0 (some 1) [0, 1] =
      evaluate_distances (fun q => ((0 : ℤ), ⟨q.d__km, 0, 0, 1⟩))
        2 2 1 50000 250 [5, 7] 20 1 1 0 (some 1) :=
  claim_C3_worker_count_invariance (fun q => ((0 : ℤ), ⟨q.d__km, 0, 0, 1⟩))
    2 2 1 50000 250 [5, 7] 20 1 1 0 (some 1) (some 4) [0, 1] [1, 0]
    (by decide) (by decide)

/-- Claim C5: against the spec-modelled engine validation, a parameter
set with more than one field out of range signals exactly one validation
error, the one bound to the first invalid field in declaration order
(`1000 + i` for the least failing check index `i`); simultaneous
violations are never reported together. -/
theorem claim_C5_first_invalid_field (compute : Params → Result)
    (p : Params) (h : 2 ≤ (fieldChecks p).count false) :
    ∃ i : ℕ, i < 9 ∧ (fieldChecks p)[i]? = some false ∧
      (∀ j < i, (fieldChecks p)[j]? = some true) ∧
      run (lfmfEngine compute) p =
        Except.error ⟨1000 + (i : ℤ), errorMessage (1000 + (i : ℤ))⟩ := by
  have hex : ∃ b ∈ fieldChecks p, b = false := by
    by_contra hne
    push_neg at hne
    have hz : (fieldChecks p).count false = 0 := by
      rw [List.count_eq_zero]
      intro hmem
      exact hne false hmem rfl
    omega
  obtain ⟨i, hi⟩ :=
    Option.isSome_iff_exists.mp (findIdx?_not_isSome (fieldChecks p) 0 hex)
  obtain ⟨-, hlt, hfalse, hall⟩ := findIdx?_not_first (fieldChecks p) 0 i hi
  simp only [Nat.sub_zero] at hlt hfalse hall
  have hlen : (fieldChecks p).length = 9 := rfl
  exact ⟨i, by omega, hfalse, hall, run_lfmfEngine_error compute p i hi⟩

/-- Witness for C5: transmitter and receiver heights both negative; the
reported code belongs to the first of the two in declaration order. -/
theorem claim_C5_witness :
    ∃ i : ℕ, i < 9 ∧
      (fieldChecks ⟨-1, -1, 1, 1, 250, 1, 1, 1, 1⟩)[i]? = some false ∧
      (∀ j < i,
        (fieldChecks ⟨-1, -1, 1, 1, 250, 1, 1, 1, 1⟩)[j]? = some true) ∧
      run (lfmfEngine (fun _ => ⟨0, 0, 0, 0⟩))
          ⟨-1, -1, 1, 1, 250, 1, 1, 1, 1⟩ =
        Except.error ⟨1000 + (i : ℤ), errorMessage (1000 + (i : ℤ))⟩ :=
  claim_C5_first_invalid_field (fun _ => ⟨0, 0, 0, 0⟩)
    ⟨-1, -1, 1, 1, 250, 1, 1, 1, 1⟩ (by norm_num [fieldChecks])

/-- Claim C6: with every field other than frequency in range, the
spec-modelled engine makes `run` succeed at frequency 0.01 MHz and
30 MHz (both bounds inclusive) and raise the frequency validation error
(code 1002) at 0 MHz and 30.0001 MHz. -/
theorem claim_C6_frequency_bounds (compute : Params → Result) (p : Params)
    (h1 : 0 ≤ p.h_tx__meter ∧ p.h_tx__meter ≤ 50)
    (h2 : 0 ≤ p.h_rx__meter ∧ p.h_rx__meter ≤ 50)
    (h4 : 0 < p.P_tx__watt)
    (h5 : 250 ≤ p.N_s ∧ p.N_s ≤ 400)
    (h6 : p.d__km ≤ 10000)
    (h7 : 1 ≤ p.epsilon)
    (h8 : 0 < p.sigma)
    (h9 : p.pol = 0 ∨ p.pol = 1) :
    (run (lfmfEngine compute) {p with f__mhz := 1/100}).isOk = true ∧
    run (lfmfEngine compute) {p with f__mhz := 0} =
      Except.error ⟨1002, errorMessage 1002⟩ ∧
    (run (lfmfEngine compute) {p with f__mhz := 30}).isOk = true ∧
    run (lfmfEngine compute) {p with f__mhz := 300001/10000} =
      Except.error ⟨1002, errorMessage 1002⟩ := by
  have hc : ∀ q : ℚ, 1/100 ≤ q → q ≤ 30 →
      ∀ b ∈ fieldChecks {p with f__mhz := q}, b = true := by
    intro q hq1 hq2 b hb
    simp only [fieldChecks, List.mem_cons, List.not_mem_nil, or_false] at hb
    rcases hb with rfl | rfl | rfl | rfl | rfl | rfl | rfl | rfl | rfl
    · exact decide_eq_true h1
    · exact decide_eq_true h2
    · exact decide_eq_true ⟨hq1, hq2⟩
    · exact decide_eq_true h4
    · exact decide_eq_true h5
    · exact decide_eq_true h6
    · exact decide_eq_true h7
    · exact decide_eq_true h8
    · exact decide_eq_true h9
  have hok : ∀ q : ℚ, 1/100 ≤ q → q ≤ 30 →
      (run (lfmfEngine compute) {p with f__mhz := q}).isOk = true := by
    intro q hq1 hq2
    rw [run_lfmfEngine_ok compute _ (hc q hq1 hq2)]
    rfl
  have hfail : ∀ q : ℚ, ¬(1/100 ≤ q ∧ q ≤ 30) →
      run (lfmfEngine compute) {p with f__mhz := q} =
        Except.error ⟨1002, errorMessage 1002⟩ := by
    intro q hq
    have hfind : List.findIdx? (fun b => !b)
        (fieldChecks {p with f__mhz := q}) 0 = some 2 := by
      have hlist : fieldChecks {p with f__mhz := q} =
          [true, true, false, true, true, true, true, true, true] := by
        simp only [fieldChecks]
        rw [decide_eq_true h1, decide_eq_true h2, decide_eq_false hq,
          decide_eq_true h4, decide_eq_true h5, decide_eq_true h6,
          decide_eq_true h7, decide_eq_true h8, decide_eq_true h9]
      rw [hlist]
      decide
    have herr := run_lfmfEngine_error compute {p with f__mhz := q} 2 hfind
    have hcode : (1000 : ℤ) + ((2 : ℕ) : ℤ) = 1002 := by norm_num
    rw [hcode] at herr
    exact herr
  exact ⟨hok (1/100) le_rfl (by norm_num), hfail 0 (by norm_num),
    hok 30 (by norm_num) le_rfl, hfail (300001/10000) (by norm_num)⟩

/-- Witness for C6: the four frequency boundary cases at a concrete
otherwise-valid baseline. -/
theorem claim_C6_witness :
    (run (lfmfEngine (fun _ => ⟨1, 2, 3, 0⟩))
      {(⟨2, 2, 999, 50000, 250, 100, 20, 1, 1⟩ : Params) with
        f__mhz := 1/100}).isOk = true ∧
    run (lfmfEngine (fun _ => ⟨1, 2, 3, 0⟩))
        {(⟨2, 2, 999, 50000, 250, 100, 20, 1, 1⟩ : Params) with
          f__mhz := 0} =
      Except.error ⟨1002, errorMessage 1002⟩ ∧
    (run (lfmfEngine (fun _ => ⟨1, 2, 3, 0⟩))
      {(⟨2, 2, 999, 50000, 250, 100, 20, 1, 1⟩ : Params) with
        f__mhz := 30}).isOk = true ∧
    run (lfmfEngine (fun _ => ⟨1, 2, 3, 0⟩))
        {(⟨2, 2, 999, 50000, 250, 100, 20, 1, 1⟩ : Params) with
          f__mhz := 300001/10000} =
      Except.error ⟨1002, errorMessage 1002⟩ :=
  claim_C6_frequency_bounds (fun _ => ⟨1, 2, 3, 0⟩)
    ⟨2, 2, 999, 50000, 250, 100, 20, 1, 1⟩
    (by norm_num) (by norm_num) (by norm_num) (by norm_num)
    (by norm_num) (by norm_num) (by norm_num) (Or.inr rfl)

end ITU368
